import Mathlib

/-!
Verification of the Meta-Vision-SolaisNG `irm_uart` node and its serial
communication core.

The repository ships a 29-line glue script
(`src/irm_uart/irm_uart/irm_uart.py`); the packet codec, serial transport
and command dispatcher (`UARTCommunicator.process_one_packet`) live in the
`communicator` module that the script imports but the repository does not
contain.  Those parts are modelled from the specification (sections 3, 4
and 6 of spec.md); the glue callback is embedded directly from the source.
-/

namespace Solais

/-! ## Packet codec (modelled from the spec) -/

/-- Modelled from the spec: fixed start-of-frame marker byte
(`src` does not contain the codec; spec section 3, "header marker"). -/
def START_BYTE : Nat := 0xAA

/-- Modelled from the spec: fixed frame terminator byte
(`src` does not contain the codec; spec section 3, "frame terminator"). -/
def END_BYTE : Nat := 0x55

/-- Modelled from the spec: the configuration surface the codec consumes.
`codes` is the enumerated command-code table; `inRange` decides whether the
32-bit pattern of a yaw/pitch value is finite and within the configured
physical limits.  Yaw and pitch are carried as their 32-bit bit patterns,
so bit-for-bit payload statements are statements about these naturals. -/
structure Config where
  codes : List Nat
  inRange : Nat → Bool

/-- A configuration is well formed when every command code fits in one byte
and every in-range payload pattern fits in 32 bits. -/
def Config.WF (cfg : Config) : Prop :=
  (∀ c ∈ cfg.codes, c < 256) ∧ (∀ v, cfg.inRange v = true → v < 2 ^ 32)

/-- Modelled from the spec: little-endian 4-byte encoding of a 32-bit value
(spec section 3, "fixed-size binary encoding ... in a defined byte order"). -/
def toBytesLE (v : Nat) : List Nat :=
  [v % 256, v / 256 % 256, v / 256 ^ 2 % 256, v / 256 ^ 3 % 256]

/-- Modelled from the spec: the inverse little-endian reading. -/
def fromBytesLE (bs : List Nat) : Nat :=
  bs.foldr (fun b acc => b + 256 * acc) 0

/-- Modelled from the spec: the single deterministic checksum function, an
additive checksum over header+code+payload (spec section 4.1). -/
def checksum (bs : List Nat) : Nat := bs.sum % 256

/-- Modelled from the spec: codec failures on `encode` (spec section 4.1). -/
inductive CodecError where
  | invalidCommand
  | outOfRange
deriving DecidableEq

/-- Modelled from the spec: codec failures on `decode` (spec section 4.1). -/
inductive DecodeError where
  | framingError
  | checksumError
deriving DecidableEq

/-- Modelled from the spec: the decoded content of a frame — command code and
the two 32-bit payload patterns (spec section 3, `AckResult`). -/
structure AckResult where
  cmd : Nat
  yaw : Nat
  pitch : Nat
deriving DecidableEq

/-- Modelled from the spec: `encode(command, yaw, pitch) -> bytes`
(spec sections 4.1 and 6).  Validates the command against the table and the
payload against the configured limits, then emits the 12-byte frame
`[START:1][CMD:1][YAW:4][PITCH:4][CHECKSUM:1][END:1]`. -/
def encode (cfg : Config) (cmd yaw pitch : Nat) : Except CodecError (List Nat) :=
  if cmd ∈ cfg.codes then
    if cfg.inRange yaw ∧ cfg.inRange pitch then
      let body := START_BYTE :: cmd :: (toBytesLE yaw ++ toBytesLE pitch)
      .ok (body ++ [checksum body, END_BYTE])
    else .error .outOfRange
  else .error .invalidCommand

/-- Modelled from the spec: `decode(bytes) -> AckResult` (spec section 4.1).
Fails with `framingError` when the start/terminator markers are absent or
the length is wrong, with `checksumError` when the recomputed checksum over
header+code+payload disagrees with the received checksum byte. -/
def decode (frame : List Nat) : Except DecodeError AckResult :=
  match frame with
  | [s, c, y0, y1, y2, y3, p0, p1, p2, p3, ck, e] =>
    if s = START_BYTE ∧ e = END_BYTE then
      if ck = checksum [s, c, y0, y1, y2, y3, p0, p1, p2, p3] then
        .ok ⟨c, fromBytesLE [y0, y1, y2, y3], fromBytesLE [p0, p1, p2, p3]⟩
      else .error .checksumError
    else .error .framingError
  | _ => .error .framingError

/-- Flip bit `k` of the byte at position `i` of a frame. -/
def flipBit (frame : List Nat) (i k : Nat) : List Nat :=
  frame.set i ((frame.getD i 0) ^^^ 2 ^ k)

theorem fromBytesLE_toBytesLE (v : Nat) (h : v < 2 ^ 32) :
    fromBytesLE (toBytesLE v) = v := by
  simp only [toBytesLE, fromBytesLE, List.foldr]
  have h2 : (256 : Nat) ^ 2 = 65536 := by norm_num
  have h3 : (256 : Nat) ^ 3 = 16777216 := by norm_num
  rw [h2, h3]
  omega

/-! ## Serial transport and command dispatcher (modelled from the spec) -/

/-- Modelled from the spec: the retry policy constant of the dispatcher
(spec section 4.3, "Loop up to `MAX_RETRIES` (policy constant, e.g. 3)"). -/
def MAX_RETRIES : Nat := 3

/-- Modelled from the spec: the outcome the serial link offers one
write/read-ack cycle.  `ack resp` means the write succeeded and the read
returned the bytes `resp`; `timeout` means the read timed out; the last
three are the fatal link errors of spec section 4.2. -/
inductive LinkEvent where
  | ack (resp : List Nat)
  | timeout
  | portUnavailable
  | linkClosed
  | ioError
deriving DecidableEq

/-- Modelled from the spec: transient frame errors, retried locally
(spec section 7). -/
inductive TransientError where
  | timeout
  | checksumError
  | framingError
deriving DecidableEq

/-- Modelled from the spec: fatal link errors, never retried
(spec section 7). -/
inductive FatalError where
  | portUnavailable
  | linkClosed
  | ioError
deriving DecidableEq

/-- The `LinkEvent` corresponding to a fatal link error. -/
def FatalError.toEvent : FatalError → LinkEvent
  | .portUnavailable => .portUnavailable
  | .linkClosed => .linkClosed
  | .ioError => .ioError

/-- Modelled from the spec: the typed result of one dispatch call
(spec sections 4.3 and 7): success, a fail-fast input error, retries
exhausted (`DispatchFailed{attempts, lastError}`), or a fatal link error
carrying the recorded attempt count. -/
inductive DispatchResult where
  | ok (ack : AckResult)
  | invalidCommand
  | outOfRange
  | dispatchFailed (attempts : Nat) (lastError : TransientError)
  | fatalError (attempts : Nat) (e : FatalError)
deriving DecidableEq

/-- The observable outcome of a dispatch call: its result together with the
trace of frames actually written to the wire (the transport effect). -/
structure DispatchOutcome where
  result : DispatchResult
  wire : List (List Nat)
deriving DecidableEq

/-- Modelled from the spec: the dispatcher's retry loop (spec section 4.3,
steps 3–4).  `events n` is what the link does on the `n`-th write/read
cycle; `fuel` counts the remaining permitted attempts, `attempts` those
already performed, `wire` the frames written so far.  A successful write
appends the frame to the wire; a fatal error aborts immediately; a
transient error retries until the fuel is exhausted. -/
def runAttempts (frame : List Nat) (events : Nat → LinkEvent) :
    Nat → Nat → Nat → List (List Nat) → DispatchOutcome
  | 0, _, attempts, wire => ⟨.dispatchFailed attempts .timeout, wire⟩
  | fuel + 1, idx, attempts, wire =>
    match events idx with
    | .portUnavailable => ⟨.fatalError (attempts + 1) .portUnavailable, wire⟩
    | .linkClosed => ⟨.fatalError (attempts + 1) .linkClosed, wire⟩
    | .ioError => ⟨.fatalError (attempts + 1) .ioError, wire⟩
    | .timeout =>
      if fuel = 0 then ⟨.dispatchFailed (attempts + 1) .timeout, wire ++ [frame]⟩
      else runAttempts frame events fuel (idx + 1) (attempts + 1) (wire ++ [frame])
    | .ack resp =>
      match decode resp with
      | .ok a => ⟨.ok a, wire ++ [frame]⟩
      | .error .framingError =>
        if fuel = 0 then ⟨.dispatchFailed (attempts + 1) .framingError, wire ++ [frame]⟩
        else runAttempts frame events fuel (idx + 1) (attempts + 1) (wire ++ [frame])
      | .error .checksumError =>
        if fuel = 0 then ⟨.dispatchFailed (attempts + 1) .checksumError, wire ++ [frame]⟩
        else runAttempts frame events fuel (idx + 1) (attempts + 1) (wire ++ [frame])

/-- Modelled from the spec: `UARTCommunicator.process_one_packet`
(spec section 4.3).  Validates the inputs — failing fast with no I/O —
then encodes once and runs the bounded retry loop against the link. -/
def process_one_packet (cfg : Config) (cmd yaw pitch : Nat)
    (events : Nat → LinkEvent) : DispatchOutcome :=
  match encode cfg cmd yaw pitch with
  | .error .invalidCommand => ⟨.invalidCommand, []⟩
  | .error .outOfRange => ⟨.outOfRange, []⟩
  | .ok frame => runAttempts frame events MAX_RETRIES 0 0 []

/-! ## The glue callback (`src/irm_uart/irm_uart/irm_uart.py`)

The callback is embedded as a trace-producing function.  `V` is the type of
the numeric values carried on the topic and through the service (floats in
the script), `E` the type of the `ServiceException` payload.  The remote
tracking service is an external collaborator, passed in as a function from
the two relayed values to either an exception or the adjusted
`(new_yaw, new_pitch)` pair.  `NodeConfig.searchTarget` is the external
`config.SEARCH_TARGET` command code. -/

/-- The Python runtime error raised by indexing a too-short sequence. -/
inductive PyErr where
  | indexError
deriving DecidableEq

/-- The externally supplied node configuration: the command code the
callback dispatches (`config.SEARCH_TARGET`). -/
structure NodeConfig where
  searchTarget : Nat

/-- One observable step of the callback, in program order:
waiting for the service, calling it with the relayed values, constructing a
fresh `UARTCommunicator`, dispatching a packet over the hardware link,
printing the service failure, or raising a runtime error. -/
inductive Event (V E : Type) where
  | waitForService
  | serviceCall (yaw pitch : V)
  | constructCommunicator
  | dispatch (code : Nat) (yaw pitch : V)
  | printError (e : E)
  | raise (err : PyErr)
deriving DecidableEq

variable {V E : Type}

/-- The `callback(data)` function of `irm_uart.py`, embedded as the trace of
events it performs.  It indexes `data.data[0]` and `data.data[1]` first
(raising `IndexError` on a short message before anything else happens),
waits for the service, relays the two values to it, and — inside the
`try` — either dispatches `config.SEARCH_TARGET` with the service's
adjusted result on a fresh communicator, or prints the caught
`ServiceException`. -/
def callback (cfg : NodeConfig) (data : List V)
    (service : V → V → Except E (V × V)) : List (Event V E) :=
  match data with
  | yaw :: pitch :: _ =>
    match service yaw pitch with
    | .ok (newYaw, newPitch) =>
      [.waitForService, .serviceCall yaw pitch, .constructCommunicator,
        .dispatch cfg.searchTarget newYaw newPitch]
    | .error e =>
      [.waitForService, .serviceCall yaw pitch, .printError e]
  | _ => [.raise .indexError]

/-- Discriminator for the communicator-construction event. -/
def isConstructEvent : Event V E → Bool
  | .constructCommunicator => true
  | _ => false

/-! ## Helper lemmas -/

theorem xor_two_pow_ne (b k : Nat) : b ^^^ 2 ^ k ≠ b := by
  intro h
  have h2 := congrArg (fun x => b ^^^ x) h
  simp [← Nat.xor_assoc, Nat.xor_self, Nat.zero_xor] at h2

theorem xor_two_pow_lt (b k : Nat) (hb : b < 256) (hk : k < 8) :
    b ^^^ 2 ^ k < 256 := by
  have h1 : (2 : Nat) ^ k < 2 ^ 8 := Nat.pow_lt_pow_right (by norm_num) hk
  exact Nat.xor_lt_two_pow hb h1

theorem encode_ok_inv (cfg : Config) (cmd yaw pitch : Nat) (frame : List Nat)
    (henc : encode cfg cmd yaw pitch = .ok frame) :
    cmd ∈ cfg.codes ∧ (cfg.inRange yaw = true ∧ cfg.inRange pitch = true) ∧
    frame = START_BYTE :: cmd :: (toBytesLE yaw ++ toBytesLE pitch) ++
      [checksum (START_BYTE :: cmd :: (toBytesLE yaw ++ toBytesLE pitch)), END_BYTE] := by
  unfold encode at henc
  by_cases hcmd : cmd ∈ cfg.codes
  · rw [if_pos hcmd] at henc
    by_cases hr : cfg.inRange yaw = true ∧ cfg.inRange pitch = true
    · rw [if_pos hr] at henc
      injection henc with h
      exact ⟨hcmd, hr, h.symm⟩
    · rw [if_neg hr] at henc
      exact absurd henc (by simp)
  · rw [if_neg hcmd] at henc
    exact absurd henc (by simp)

/-- Flipping a single bit of any of the twelve bytes of a well-formed
frame (given here by its ten header/code/payload bytes, each a genuine
byte) makes decoding fail: with a framing error when a marker byte is hit,
with a checksum error otherwise. -/
theorem decode_flip_aux (c b2 b3 b4 b5 b6 b7 b8 b9 i k : Nat)
    (hc : c < 256) (h2 : b2 < 256) (h3 : b3 < 256) (h4 : b4 < 256)
    (h5 : b5 < 256) (h6 : b6 < 256) (h7 : b7 < 256) (h8 : b8 < 256)
    (h9 : b9 < 256) (hi : i < 12) (hk : k < 8) :
    decode (flipBit [START_BYTE, c, b2, b3, b4, b5, b6, b7, b8, b9,
      checksum [START_BYTE, c, b2, b3, b4, b5, b6, b7, b8, b9], END_BYTE] i k)
      = .error (if i = 0 ∨ i = 11 then .framingError else .checksumError) := by
  interval_cases i
  · show decode _ = Except.error DecodeError.framingError
    have hne := xor_two_pow_ne START_BYTE k
    simp only [flipBit, List.set, List.getD, List.get?, Option.getD, decode]
    rw [if_neg]
    intro hcon
    exact hne hcon.1
  · show decode _ = Except.error DecodeError.checksumError
    have hne := xor_two_pow_ne c k
    have hlt := xor_two_pow_lt c k hc hk
    simp only [flipBit, List.set, List.getD, List.get?, Option.getD, decode, checksum,
      List.sum_cons, List.sum_nil, eq_self_iff_true, and_self, if_true]
    rw [if_neg]
    omega
  · show decode _ = Except.error DecodeError.checksumError
    have hne := xor_two_pow_ne b2 k
    have hlt := xor_two_pow_lt b2 k h2 hk
    simp only [flipBit, List.set, List.getD, List.get?, Option.getD, decode, checksum,
      List.sum_cons, List.sum_nil, eq_self_iff_true, and_self, if_true]
    rw [if_neg]
    omega
  · show decode _ = Except.error DecodeError.checksumError
    have hne := xor_two_pow_ne b3 k
    have hlt := xor_two_pow_lt b3 k h3 hk
    simp only [flipBit, List.set, List.getD, List.get?, Option.getD, decode, checksum,
      List.sum_cons, List.sum_nil, eq_self_iff_true, and_self, if_true]
    rw [if_neg]
    omega
  · show decode _ = Except.error DecodeError.checksumError
    have hne := xor_two_pow_ne b4 k
    have hlt := xor_two_pow_lt b4 k h4 hk
    simp only [flipBit, List.set, List.getD, List.get?, Option.getD, decode, checksum,
      List.sum_cons, List.sum_nil, eq_self_iff_true, and_self, if_true]
    rw [if_neg]
    omega
  · show decode _ = Except.error DecodeError.checksumError
    have hne := xor_two_pow_ne b5 k
    have hlt := xor_two_pow_lt b5 k h5 hk
    simp only [flipBit, List.set, List.getD, List.get?, Option.getD, decode, checksum,
      List.sum_cons, List.sum_nil, eq_self_iff_true, and_self, if_true]
    rw [if_neg]
    omega
  · show decode _ = Except.error DecodeError.checksumError
    have hne := xor_two_pow_ne b6 k
    have hlt := xor_two_pow_lt b6 k h6 hk
    simp only [flipBit, List.set, List.getD, List.get?, Option.getD, decode, checksum,
      List.sum_cons, List.sum_nil, eq_self_iff_true, and_self, if_true]
    rw [if_neg]
    omega
  · show decode _ = Except.error DecodeError.checksumError
    have hne := xor_two_pow_ne b7 k
    have hlt := xor_two_pow_lt b7 k h7 hk
    simp only [flipBit, List.set, List.getD, List.get?, Option.getD, decode, checksum,
      List.sum_cons, List.sum_nil, eq_self_iff_true, and_self, if_true]
    rw [if_neg]
    omega
  · show decode _ = Except.error DecodeError.checksumError
    have hne := xor_two_pow_ne b8 k
    have hlt := xor_two_pow_lt b8 k h8 hk
    simp only [flipBit, List.set, List.getD, List.get?, Option.getD, decode, checksum,
      List.sum_cons, List.sum_nil, eq_self_iff_true, and_self, if_true]
    rw [if_neg]
    omega
  · show decode _ = Except.error DecodeError.checksumError
    have hne := xor_two_pow_ne b9 k
    have hlt := xor_two_pow_lt b9 k h9 hk
    simp only [flipBit, List.set, List.getD, List.get?, Option.getD, decode, checksum,
      List.sum_cons, List.sum_nil, eq_self_iff_true, and_self, if_true]
    rw [if_neg]
    omega
  · show decode _ = Except.error DecodeError.checksumError
    have hne := xor_two_pow_ne (checksum [START_BYTE, c, b2, b3, b4, b5, b6, b7, b8, b9]) k
    simp only [flipBit, List.set, List.getD, List.get?, Option.getD, decode, checksum,
      List.sum_cons, List.sum_nil, eq_self_iff_true, and_self, if_true] at hne ⊢
    rw [if_neg]
    omega
  · show decode _ = Except.error DecodeError.framingError
    have hne := xor_two_pow_ne END_BYTE k
    simp only [flipBit, List.set, List.getD, List.get?, Option.getD, decode]
    rw [if_neg]
    intro hcon
    exact hne hcon.2

/-! ## Codec theorems -/

/-- C1: for every command in the enumerated command set and every pair of
in-range payload values, decoding the bytes produced by
`encode(cmd, yaw, pitch)` recovers exactly the same command and the same
payload bit-for-bit: `decode` is a left inverse of `encode` on valid
inputs. -/
theorem decode_encode_roundtrip (cfg : Config) (hwf : cfg.WF)
    (cmd yaw pitch : Nat) (frame : List Nat)
    (henc : encode cfg cmd yaw pitch = .ok frame) :
    decode frame = .ok ⟨cmd, yaw, pitch⟩ := by
  obtain ⟨hcmd, hr, hfr⟩ := encode_ok_inv cfg cmd yaw pitch frame henc
  have hy : yaw < 2 ^ 32 := hwf.2 _ hr.1
  have hp : pitch < 2 ^ 32 := hwf.2 _ hr.2
  subst hfr
  have hy4 : fromBytesLE [yaw % 256, yaw / 256 % 256, yaw / 65536 % 256,
      yaw / 16777216 % 256] = yaw := fromBytesLE_toBytesLE yaw hy
  have hp4 : fromBytesLE [pitch % 256, pitch / 256 % 256, pitch / 65536 % 256,
      pitch / 16777216 % 256] = pitch := fromBytesLE_toBytesLE pitch hp
  simp only [toBytesLE, List.cons_append, List.nil_append, List.append_assoc]
  simp only [decode, checksum, List.sum_cons, List.sum_nil, eq_self_iff_true,
    and_self, if_true]
  simp [hy4, hp4]

/-- C1 witness: the round trip evaluated at the concrete configuration with
command table `[6]`, command `6`, yaw pattern `1000`, pitch pattern
`2000`. -/
theorem decode_encode_roundtrip_witness :
    decode [170, 6, 232, 3, 0, 0, 208, 7, 0, 0, 114, 85] =
      .ok ⟨6, 1000, 2000⟩ :=
  decode_encode_roundtrip ⟨[6], fun v => decide (v < 4294967296)⟩
    ⟨by decide, fun v h => by simpa using of_decide_eq_true h⟩
    6 1000 2000 [170, 6, 232, 3, 0, 0, 208, 7, 0, 0, 114, 85] (by rfl)

/-- C2: flipping any single bit of any byte of a well-formed (encoder
produced) frame makes `decode` fail — with a framing error when the flipped
bit lies in the start or terminator marker byte, with a checksum error
otherwise — and never succeed. -/
theorem decode_single_bit_flip_fails (cfg : Config) (hwf : cfg.WF)
    (cmd yaw pitch : Nat) (frame : List Nat)
    (henc : encode cfg cmd yaw pitch = .ok frame)
    (i k : Nat) (hi : i < 12) (hk : k < 8) :
    decode (flipBit frame i k) =
      .error (if i = 0 ∨ i = 11 then .framingError else .checksumError) := by
  obtain ⟨hcmd, hr, hfr⟩ := encode_ok_inv cfg cmd yaw pitch frame henc
  have hc : cmd < 256 := hwf.1 _ hcmd
  subst hfr
  have hfr2 : START_BYTE :: cmd :: (toBytesLE yaw ++ toBytesLE pitch) ++
      [checksum (START_BYTE :: cmd :: (toBytesLE yaw ++ toBytesLE pitch)), END_BYTE] =
      [START_BYTE, cmd, yaw % 256, yaw / 256 % 256, yaw / 256 ^ 2 % 256,
        yaw / 256 ^ 3 % 256, pitch % 256, pitch / 256 % 256,
        pitch / 256 ^ 2 % 256, pitch / 256 ^ 3 % 256,
        checksum [START_BYTE, cmd, yaw % 256, yaw / 256 % 256,
          yaw / 256 ^ 2 % 256, yaw / 256 ^ 3 % 256, pitch % 256,
          pitch / 256 % 256, pitch / 256 ^ 2 % 256, pitch / 256 ^ 3 % 256],
        END_BYTE] := by
    simp [toBytesLE]
  rw [hfr2]
  exact decode_flip_aux cmd _ _ _ _ _ _ _ _ i k hc
    (Nat.mod_lt _ (by norm_num)) (Nat.mod_lt _ (by norm_num))
    (Nat.mod_lt _ (by norm_num)) (Nat.mod_lt _ (by norm_num))
    (Nat.mod_lt _ (by norm_num)) (Nat.mod_lt _ (by norm_num))
    (Nat.mod_lt _ (by norm_num)) (Nat.mod_lt _ (by norm_num)) hi hk

/-- C2 witness: flipping bit 5 of byte 3 of the concrete frame for
`encode(6, 1000, 2000)` yields a checksum error. -/
theorem decode_single_bit_flip_fails_witness :
    decode (flipBit [170, 6, 232, 3, 0, 0, 208, 7, 0, 0, 114, 85] 3 5) =
      .error .checksumError := by
  have h := decode_single_bit_flip_fails ⟨[6], fun v => decide (v < 4294967296)⟩
    ⟨by decide, fun v h => by simpa using of_decide_eq_true h⟩
    6 1000 2000 [170, 6, 232, 3, 0, 0, 208, 7, 0, 0, 114, 85] (by rfl)
    3 5 (by decide) (by decide)
  simpa using h

/-- C6: every frame produced by a successful `encode` is exactly 12 bytes
long, laid out as start marker, command byte, four yaw bytes, four pitch
bytes, checksum byte and terminator; the length is the same for every
command and payload. -/
theorem encode_frame_layout (cfg : Config) (cmd yaw pitch : Nat)
    (frame : List Nat) (henc : encode cfg cmd yaw pitch = .ok frame) :
    frame.length = 12 ∧
    frame = START_BYTE :: cmd :: (toBytesLE yaw ++ toBytesLE pitch) ++
      [checksum (START_BYTE :: cmd :: (toBytesLE yaw ++ toBytesLE pitch)), END_BYTE] ∧
    (toBytesLE yaw).length = 4 ∧ (toBytesLE pitch).length = 4 := by
  obtain ⟨hcmd, hr, hfr⟩ := encode_ok_inv cfg cmd yaw pitch frame henc
  subst hfr
  refine ⟨?_, rfl, by simp [toBytesLE], by simp [toBytesLE]⟩
  simp [toBytesLE]

/-- C6 witness: the layout theorem evaluated at command `6`, yaw `1000`,
pitch `2000` under the concrete configuration. -/
theorem encode_frame_layout_witness :
    ([170, 6, 232, 3, 0, 0, 208, 7, 0, 0, 114, 85] : List Nat).length = 12 ∧
    ([170, 6, 232, 3, 0, 0, 208, 7, 0, 0, 114, 85] : List Nat) =
      START_BYTE :: 6 :: (toBytesLE 1000 ++ toBytesLE 2000) ++
        [checksum (START_BYTE :: 6 :: (toBytesLE 1000 ++ toBytesLE 2000)), END_BYTE] ∧
    (toBytesLE 1000).length = 4 ∧ (toBytesLE 2000).length = 4 :=
  encode_frame_layout ⟨[6], fun v => decide (v < 4294967296)⟩
    6 1000 2000 [170, 6, 232, 3, 0, 0, 208, 7, 0, 0, 114, 85] (by rfl)

/-! ## Dispatcher theorems -/

/-- C3: when every write-then-read cycle of a dispatch call times out,
`process_one_packet` performs exactly `MAX_RETRIES` attempts — the wire
trace is exactly `MAX_RETRIES` copies of the frame — and returns the
`dispatchFailed` result whose recorded attempt count equals
`MAX_RETRIES`. -/
theorem dispatch_all_timeouts_retry_bound (cfg : Config) (cmd yaw pitch : Nat)
    (frame : List Nat) (events : Nat → LinkEvent)
    (henc : encode cfg cmd yaw pitch = .ok frame)
    (hto : ∀ n, events n = LinkEvent.timeout) :
    process_one_packet cfg cmd yaw pitch events =
      ⟨.dispatchFailed MAX_RETRIES .timeout, [frame, frame, frame]⟩ := by
  unfold process_one_packet
  rw [henc]
  show runAttempts frame events 3 0 0 [] = ⟨.dispatchFailed 3 .timeout, _⟩
  simp [runAttempts, hto]

/-- C3 witness: a link that always times out makes the dispatch of command
`6` fail after exactly three attempts, three frames on the wire. -/
theorem dispatch_all_timeouts_retry_bound_witness :
    process_one_packet ⟨[6], fun v => decide (v < 4294967296)⟩ 6 1000 2000
      (fun _ => LinkEvent.timeout) =
      ⟨.dispatchFailed MAX_RETRIES .timeout,
        [[170, 6, 232, 3, 0, 0, 208, 7, 0, 0, 114, 85],
         [170, 6, 232, 3, 0, 0, 208, 7, 0, 0, 114, 85],
         [170, 6, 232, 3, 0, 0, 208, 7, 0, 0, 114, 85]]⟩ :=
  dispatch_all_timeouts_retry_bound ⟨[6], fun v => decide (v < 4294967296)⟩
    6 1000 2000 [170, 6, 232, 3, 0, 0, 208, 7, 0, 0, 114, 85]
    (fun _ => LinkEvent.timeout) (by rfl) (fun _ => rfl)

/-- C4: a fatal link error (`portUnavailable`, `linkClosed` or `ioError`)
on the very first write/read cycle makes `process_one_packet` abort
immediately with exactly one recorded attempt and no retry. -/
theorem dispatch_fatal_short_circuit (cfg : Config) (cmd yaw pitch : Nat)
    (frame : List Nat) (events : Nat → LinkEvent) (e : FatalError)
    (henc : encode cfg cmd yaw pitch = .ok frame)
    (hev : events 0 = e.toEvent) :
    process_one_packet cfg cmd yaw pitch events = ⟨.fatalError 1 e, []⟩ := by
  unfold process_one_packet
  rw [henc]
  show runAttempts frame events 3 0 0 [] = ⟨.fatalError 1 e, []⟩
  cases e <;> simp only [FatalError.toEvent] at hev <;> simp [runAttempts, hev]

/-- C4 witness: a port-unavailable error on the first write of the dispatch
of command `6` fails with one recorded attempt and nothing on the wire. -/
theorem dispatch_fatal_short_circuit_witness :
    process_one_packet ⟨[6], fun v => decide (v < 4294967296)⟩ 6 1000 2000
      (fun _ => LinkEvent.portUnavailable) =
      ⟨.fatalError 1 .portUnavailable, []⟩ :=
  dispatch_fatal_short_circuit ⟨[6], fun v => decide (v < 4294967296)⟩
    6 1000 2000 [170, 6, 232, 3, 0, 0, 208, 7, 0, 0, 114, 85]
    (fun _ => LinkEvent.portUnavailable) .portUnavailable (by rfl) rfl

/-- C5: invalid inputs fail fast with no I/O — an unknown command yields
`invalidCommand` and an out-of-range payload yields `outOfRange`, in both
cases with an empty wire trace, whatever the link would have done. -/
theorem dispatch_input_errors_no_io (cfg : Config) (cmd yaw pitch : Nat)
    (events : Nat → LinkEvent) :
    (cmd ∉ cfg.codes →
      process_one_packet cfg cmd yaw pitch events = ⟨.invalidCommand, []⟩) ∧
    (cmd ∈ cfg.codes →
      ¬(cfg.inRange yaw = true ∧ cfg.inRange pitch = true) →
      process_one_packet cfg cmd yaw pitch events = ⟨.outOfRange, []⟩) := by
  constructor
  · intro h
    unfold process_one_packet encode
    rw [if_neg h]
  · intro h1 h2
    unfold process_one_packet encode
    rw [if_pos h1, if_neg h2]

/-- C5 witness: command `7` is rejected as invalid and the out-of-range
payload `4294967296` as out of range, both with an empty wire trace. -/
theorem dispatch_input_errors_no_io_witness :
    process_one_packet ⟨[6], fun v => decide (v < 4294967296)⟩ 7 1000 2000
      (fun _ => LinkEvent.timeout) = ⟨.invalidCommand, []⟩ ∧
    process_one_packet ⟨[6], fun v => decide (v < 4294967296)⟩ 6 4294967296 2000
      (fun _ => LinkEvent.timeout) = ⟨.outOfRange, []⟩ :=
  ⟨(dispatch_input_errors_no_io ⟨[6], fun v => decide (v < 4294967296)⟩
      7 1000 2000 (fun _ => LinkEvent.timeout)).1 (by decide),
   (dispatch_input_errors_no_io ⟨[6], fun v => decide (v < 4294967296)⟩
      6 4294967296 2000 (fun _ => LinkEvent.timeout)).2 (by decide) (by decide)⟩

/-! ## Callback theorems -/

/-- C7: the dispatcher is invoked during a callback only when the remote
tracking service call returned successfully; when the service call raises,
no dispatch event occurs in that callback and the error is printed
instead. -/
theorem callback_dispatch_only_on_service_success (cfg : NodeConfig)
    (data : List V) (service : V → V → Except E (V × V)) :
    (∀ c a b, Event.dispatch c a b ∈ callback cfg data service →
      ∃ y p rest r, data = y :: p :: rest ∧ service y p = .ok r) ∧
    (∀ y p rest e, data = y :: p :: rest → service y p = .error e →
      (∀ c a b, Event.dispatch c a b ∉ callback cfg data service) ∧
      Event.printError e ∈ callback cfg data service) := by
  constructor
  · intro c a b hmem
    rcases data with _ | ⟨y, _ | ⟨p, rest⟩⟩
    · simp [callback] at hmem
    · simp [callback] at hmem
    · rcases hs : service y p with e | ⟨ny, np⟩
      · simp [callback, hs] at hmem
      · exact ⟨y, p, rest, (ny, np), rfl, hs⟩
  · intro y p rest e hdata hs
    subst hdata
    simp [callback, hs]

/-- C7 witness: a service call that raises on the message `[1, 2]` leaves
the callback with no dispatch event and a printed error. -/
theorem callback_dispatch_only_on_service_success_witness :
    (∀ c a b, Event.dispatch c a b ∉
      callback ⟨6⟩ [1, 2] (fun _ _ => (Except.error 5 : Except Nat (Nat × Nat)))) ∧
    Event.printError 5 ∈
      callback ⟨6⟩ [1, 2] (fun _ _ => (Except.error 5 : Except Nat (Nat × Nat))) :=
  (callback_dispatch_only_on_service_success ⟨6⟩ [1, 2]
    (fun _ _ => (Except.error 5 : Except Nat (Nat × Nat)))).2 1 2 [] 5 rfl rfl

/-- C8: the callback relays exactly the first two elements of the message
to the tracking service, and every packet it dispatches carries the
service's adjusted result — never the original topic values. -/
theorem callback_relays_and_forwards (cfg : NodeConfig) (y p : V)
    (rest : List V) (service : V → V → Except E (V × V)) (ny np : V)
    (hs : service y p = .ok (ny, np)) :
    Event.serviceCall y p ∈ callback cfg (y :: p :: rest) service ∧
    Event.dispatch cfg.searchTarget ny np ∈ callback cfg (y :: p :: rest) service ∧
    (∀ c a b, Event.dispatch c a b ∈ callback cfg (y :: p :: rest) service →
      c = cfg.searchTarget ∧ a = ny ∧ b = np) := by
  refine ⟨by simp [callback, hs], by simp [callback, hs], ?_⟩
  intro c a b hmem
  simp [callback, hs] at hmem
  exact ⟨hmem.1, hmem.2.1, hmem.2.2⟩

/-- C8 witness: on the message `[10, 20, 99]` with a service that adds one
to the yaw and two to the pitch, the callback relays `(10, 20)` and
dispatches `(11, 22)`. -/
theorem callback_relays_and_forwards_witness :
    Event.serviceCall 10 20 ∈ callback ⟨6⟩ [10, 20, 99]
      (fun a b => (Except.ok (a + 1, b + 2) : Except Nat (Nat × Nat))) ∧
    Event.dispatch 6 11 22 ∈ callback ⟨6⟩ [10, 20, 99]
      (fun a b => (Except.ok (a + 1, b + 2) : Except Nat (Nat × Nat))) ∧
    (∀ c a b, Event.dispatch c a b ∈ callback ⟨6⟩ [10, 20, 99]
        (fun a b => (Except.ok (a + 1, b + 2) : Except Nat (Nat × Nat))) →
      c = 6 ∧ a = 11 ∧ b = 22) :=
  callback_relays_and_forwards ⟨6⟩ 10 20 [99]
    (fun a b => (Except.ok (a + 1, b + 2) : Except Nat (Nat × Nat))) 11 22 rfl

/-- C9: every callback invocation that dispatches constructs a fresh
communicator first: any dispatch event in a callback trace is preceded in
that same trace by a communicator construction, and the trace contains
exactly one construction — the communicator is created inside the
invocation, never carried over from a previous one. -/
theorem callback_fresh_communicator (cfg : NodeConfig) (data : List V)
    (service : V → V → Except E (V × V)) (i c : Nat) (a b : V)
    (hi : (callback cfg data service)[i]? = some (Event.dispatch c a b)) :
    (∃ j, j < i ∧
      (callback cfg data service)[j]? = some Event.constructCommunicator) ∧
    (callback cfg data service).countP isConstructEvent = 1 := by
  rcases data with _ | ⟨y, _ | ⟨p, rest⟩⟩
  · rcases i with _ | i <;> simp [callback] at hi
  · rcases i with _ | i <;> simp [callback] at hi
  · rcases hs : service y p with e | ⟨ny, np⟩
    · rcases i with _ | _ | _ | i <;> simp [callback, hs] at hi
    · have hi3 : i = 3 := by
        rcases i with _ | _ | _ | _ | i <;> simp [callback, hs] at hi ⊢
      subst hi3
      refine ⟨⟨2, by omega, by simp [callback, hs]⟩, ?_⟩
      simp [callback, hs, List.countP_cons, isConstructEvent]

/-- C9 witness: in the trace of the callback on `[10, 20]` with a
successful service, the dispatch at index 3 is preceded by the communicator
construction at index 2, the only one in the trace. -/
theorem callback_fresh_communicator_witness :
    (∃ j, j < 3 ∧
      (callback ⟨6⟩ [10, 20]
        (fun a b => (Except.ok (a + 1, b + 2) : Except Nat (Nat × Nat))))[j]? =
        some Event.constructCommunicator) ∧
    (callback ⟨6⟩ [10, 20]
      (fun a b => (Except.ok (a + 1, b + 2) : Except Nat (Nat × Nat)))).countP
        isConstructEvent = 1 :=
  callback_fresh_communicator ⟨6⟩ [10, 20]
    (fun a b => (Except.ok (a + 1, b + 2) : Except Nat (Nat × Nat)))
    3 6 11 22 rfl

/-- C10: the callback indexes the message payload before any validation, so
on a message with fewer than two elements it fails at the indexing step —
the trace is exactly the index-error raise, with no service call and no
dispatch. -/
theorem callback_short_message_index_error (cfg : NodeConfig) (data : List V)
    (service : V → V → Except E (V × V)) (hlen : data.length < 2) :
    callback cfg data service = [Event.raise PyErr.indexError] ∧
    (∀ y p, Event.serviceCall y p ∉ callback cfg data service) ∧
    (∀ c a b, Event.dispatch c a b ∉ callback cfg data service) := by
  rcases data with _ | ⟨y, _ | ⟨p, rest⟩⟩
  · simp [callback]
  · simp [callback]
  · simp only [List.length_cons] at hlen
    omega

/-- C10 witness: on the single-element message `[10]` the callback raises
the index error, calls no service and dispatches nothing. -/
theorem callback_short_message_index_error_witness :
    callback ⟨6⟩ [10] (fun a b => (Except.ok (a + 1, b + 2) : Except Nat (Nat × Nat))) =
      [Event.raise PyErr.indexError] ∧
    (∀ y p, Event.serviceCall y p ∉
      callback ⟨6⟩ [10] (fun a b => (Except.ok (a + 1, b + 2) : Except Nat (Nat × Nat)))) ∧
    (∀ c a b, Event.dispatch c a b ∉
      callback ⟨6⟩ [10] (fun a b => (Except.ok (a + 1, b + 2) : Except Nat (Nat × Nat)))) :=
  callback_short_message_index_error ⟨6⟩ [10]
    (fun a b => (Except.ok (a + 1, b + 2) : Except Nat (Nat × Nat))) (by decide)

end Solais

